import Mathlib

/-!
Verification of the message lifecycle and delivery subsystem of the
VirtualTherapist repository, as a shallow embedding in Lean 4.

The definitions below mirror, function by function, the Python source:
  - `app/utils/phone.py`              (`normalize_phone`)
  - `app/services/message_service.py` (the `MessageService` operations and
                                       `deliver_message`)
  - `app/services/channels/__init__.py` and `channels/whatsapp.py`
                                      (`get_channel`, `DevLogChannel.send`)

Database state is modelled as a list of `Message` records (the committed
rows); external side effects (provider send calls, APScheduler job
manipulation) are modelled as explicit effect traces.  Python `datetime`
values are modelled as a UTC instant together with a timezone-awareness
flag; `None`/empty-string fields follow Python truthiness ("" is falsy).
-/

namespace VirtualTherapist

/-- Message lifecycle status, mirroring `MessageStatus` in
`app/models/message.py`. -/
inductive MessageStatus where
  | draft
  | pending_approval
  | approved
  | scheduled
  | sent
  | delivered
  | read
  | replied
  | rejected
  | cancelled
  | failed
deriving DecidableEq, Repr

/-- A Python `datetime`: the UTC instant it denotes (when a naive value is
read as UTC wall-clock time) plus whether it carries `tzinfo`. -/
structure DT where
  instant : Int
  aware : Bool
deriving DecidableEq, Repr

/-- A row of the `messages` table (`app/models/message.py`), restricted to
the columns the lifecycle operations read or write.  String fields use
`""` for SQL NULL / Python `None`, matching Python truthiness tests. -/
structure Message where
  id : Int
  therapist_id : Int
  patient_id : Int
  content : String
  status : MessageStatus
  approved_at : Option Int := none
  rejected_at : Option Int := none
  rejection_reason : Option String := none
  sent_at : Option Int := none
  scheduled_send_at : Option DT := none
  message_type : String := ""
  recipient_phone : String := ""
  related_session_id : Option Int := none
deriving DecidableEq, Repr

/-- Result shape returned by every channel adapter
(`app/services/channels/base.py`). -/
structure SendResult where
  status : String
  provider_id : String
  error : String
deriving DecidableEq, Repr

/-- Observable external side effects of a lifecycle operation: a provider
send call (`send_whatsapp_message` in `deliver_message`) or an APScheduler
job operation. -/
inductive Effect where
  | providerSend (toPhone : String) (body : String) (template : Bool)
  | schedulerAdd (msgId : Int) (runDate : DT)
  | schedulerRemove (msgId : Int)
  | schedulerReschedule (msgId : Int) (runDate : DT)
deriving DecidableEq, Repr

/-! ### Phone normalization (`app/utils/phone.py`) -/

/-- Characters removed by `re.sub(r'[\s\-\(\)\.]', '', ...)` in
`normalize_phone`. -/
def isFormatChar (c : Char) : Bool :=
  c.isWhitespace || c == '-' || c == '(' || c == ')' || c == '.'

/-- `cleaned = re.sub(r'[\s\-\(\)\.]', '', phone.strip())`. -/
def cleanPhone (s : String) : String :=
  ⟨s.data.filter (fun c => !isFormatChar c)⟩

/-- Whether the character list `p` is an initial segment of `s`
(`str.startswith`). -/
def startsL : List Char → List Char → Bool
  | [], _ => true
  | _ :: _, [] => false
  | p :: ps, c :: cs => p == c && startsL ps cs

/-- The two rewriting rules of `normalize_phone`: `00...` becomes `+...`,
and a remaining bare leading `0` (not `0+`) becomes the default country
code `+972`. -/
def expandIntl (s : String) : String :=
  let s1 := if startsL ['0', '0'] s.data then ⟨'+' :: s.data.drop 2⟩ else s
  if startsL ['0'] s1.data && !startsL ['0', '+'] s1.data then
    ⟨'+' :: '9' :: '7' :: '2' :: s1.data.drop 1⟩
  else s1

/-- E.164 shape: `+` followed by 7 to 15 ASCII digits. -/
def isE164 (s : String) : Bool :=
  match s.data with
  | '+' :: rest =>
      rest.all Char.isDigit && decide (7 ≤ rest.length) && decide (rest.length ≤ 15)
  | _ => false

/-- `normalize_phone` from `app/utils/phone.py`: clean, rewrite the two
prefixes, then validate E.164 shape; `ValueError`s become `Except.error`. -/
def normalize_phone (phone : String) : Except String String :=
  if phone.data.all Char.isWhitespace then
    .error "Phone number cannot be empty"
  else
    match (expandIntl (cleanPhone phone)).data with
    | '+' :: digits =>
        if digits.isEmpty || !digits.all Char.isDigit then
          .error "contains non-digit characters after country code"
        else if digits.length < 7 || 15 < digits.length then
          .error "invalid length"
        else
          .ok (expandIntl (cleanPhone phone))
    | _ => .error "Cannot normalize: expected E.164 or Israeli local format"

example : normalize_phone "050-123-4567" = .ok "+972501234567" := rfl
example : normalize_phone "+1 (415) 555-0100" = .ok "+14155550100" := rfl
example : normalize_phone "abc" =
    .error "Cannot normalize: expected E.164 or Israeli local format" := rfl

/-! ### Store primitives

The SQLAlchemy session is modelled as the list of committed `messages`
rows.  `findMsg` models `query(Message).filter(Message.id == ...)`,
`findFor` adds the `Message.therapist_id == ...` filter, and `updateMsg`
models committing a mutated row. -/

/-- First row whose `id` matches (`query.filter(Message.id == i).first()`). -/
def findMsg : List Message → Int → Option Message
  | [], _ => none
  | x :: rest, i => if x.id = i then some x else findMsg rest i

/-- First row matching both `id` and `therapist_id` filters. -/
def findFor : List Message → Int → Int → Option Message
  | [], _, _ => none
  | x :: rest, tid, i =>
      if x.id = i ∧ x.therapist_id = tid then some x else findFor rest tid i

/-- Commit a mutated row: every row with the same `id` is replaced. -/
def updateMsg : List Message → Message → List Message
  | [], _ => []
  | x :: rest, m => (if x.id = m.id then m else x) :: updateMsg rest m

/-- `substr in str` (Python), used for the `"63016" in error_str` check. -/
def strHas (pat : List Char) : List Char → Bool
  | [] => startsL pat []
  | c :: cs => startsL pat (c :: cs) || strHas pat cs

/-- Attach UTC `tzinfo` to a naive datetime
(`send_at.replace(tzinfo=timezone.utc)` when `send_at.tzinfo is None`). -/
def normalizeSendAt (d : DT) : DT :=
  if d.aware then d else { d with aware := true }

/-! ### MessageService operations (`app/services/message_service.py`)

Each operation takes the committed rows and the call's arguments
(`now` is the current UTC instant; `patientPhone` resolves a patient id
to the decrypted profile phone, `""` when absent; `provider` is the
`SendResult` the provider returns for a send attempted in the call).
`Except.error` models a raised `ValueError`; a raise prevents the commit,
so the rows are returned only on success. -/

/-- `approve_message`: guard `status ∈ {DRAFT, PENDING_APPROVAL}`, then
set `APPROVED` and `approved_at`. -/
def approve_message (db : List Message) (therapist_id message_id : Int)
    (now : Int) : Except String (Message × List Message) :=
  match findFor db therapist_id message_id with
  | none => .error "Message not found or does not belong to this therapist"
  | some m =>
      if m.status = .draft ∨ m.status = .pending_approval then
        let m' := { m with status := .approved, approved_at := some now }
        .ok (m', updateMsg db m')
      else
        .error "Message cannot be approved from status"

/-- `reject_message`: no status guard in the source — any found message is
moved to `REJECTED` with `rejected_at` and `rejection_reason` recorded. -/
def reject_message (db : List Message) (therapist_id message_id : Int)
    (reason : Option String) (now : Int) :
    Except String (Message × List Message) :=
  match findFor db therapist_id message_id with
  | none => .error "Message not found"
  | some m =>
      let m' := { m with status := .rejected, rejected_at := some now,
                         rejection_reason := reason }
      .ok (m', updateMsg db m')

/-- `edit_message`: guard `status ∈ {DRAFT, PENDING_APPROVAL}`, then
overwrite `content`. -/
def edit_message (db : List Message) (therapist_id message_id : Int)
    (new_content : String) : Except String (Message × List Message) :=
  match findFor db therapist_id message_id with
  | none => .error "Message not found"
  | some m =>
      if m.status = .draft ∨ m.status = .pending_approval then
        let m' := { m with content := new_content }
        .ok (m', updateMsg db m')
      else
        .error "Can only edit draft messages"

/-- Legacy `send_message`: guard `status == APPROVED`, then mark `SENT`. -/
def send_message (db : List Message) (message_id : Int) (now : Int) :
    Except String (Message × List Message) :=
  match findMsg db message_id with
  | none => .error "Message not found"
  | some m =>
      if m.status = .approved then
        let m' := { m with status := .sent, sent_at := some now }
        .ok (m', updateMsg db m')
      else
        .error "Can only send approved messages"

/-- The recipient-phone resolution of `deliver_message`: the record's
`recipient_phone` override when set, otherwise the patient's decrypted
profile phone (`""` when neither exists). -/
def resolvePhone (patientPhone : Int → String) (m : Message) : String :=
  if m.recipient_phone ≠ "" then m.recipient_phone else patientPhone m.patient_id

/-- `deliver_message`: look up the row (returning `None` when absent),
resolve the recipient phone with fallback to the patient profile, mark
`FAILED` when none is resolvable, otherwise call the provider and record
the outcome.  There is no terminal-status guard in the source.  Only the
Twilio 63016 policy error stores a reason (into `rejection_reason`). -/
def deliver_message (db : List Message) (patientPhone : Int → String)
    (provider : SendResult) (now : Int) (message_id : Int) :
    Option Message × List Message × List Effect :=
  match findMsg db message_id with
  | none => (none, db, [])
  | some m =>
      if resolvePhone patientPhone m = "" then
        (some { m with status := .failed },
          updateMsg db { m with status := .failed }, [])
      else
        if provider.status = "sent" then
          (some { m with status := .sent, sent_at := some now },
            updateMsg db { m with status := .sent, sent_at := some now },
            [Effect.providerSend (resolvePhone patientPhone m) m.content
              (m.message_type == "session_reminder")])
        else
          (some (if strHas ['6', '3', '0', '1', '6'] provider.error.data then
              { m with status := .failed,
                       rejection_reason := some "outside 24h window - template required" }
            else
              { m with status := .failed }),
            updateMsg db (if strHas ['6', '3', '0', '1', '6'] provider.error.data then
              { m with status := .failed,
                       rejection_reason := some "outside 24h window - template required" }
            else
              { m with status := .failed }),
            [Effect.providerSend (resolvePhone patientPhone m) m.content
              (m.message_type == "session_reminder")])

/-- The content step of `send_or_schedule_message`: `final_content` is
persisted unless the message is the fixed-template `session_reminder`
type, whose content is never editable. -/
def sosContent (m : Message) (final_content : String) : Message :=
  if m.message_type ≠ "session_reminder" then { m with content := final_content }
  else m

/-- The recipient step of `send_or_schedule_message`: a non-empty
`recipient_phone` argument is normalized (propagating the
`InvalidPhoneNumber` raise) and stored; an absent one leaves the record
untouched. -/
def sosPhone (m : Message) (recipient_phone : String) : Except String Message :=
  if recipient_phone ≠ "" then
    (normalize_phone recipient_phone).map (fun p => { m with recipient_phone := p })
  else .ok m

/-- `send_or_schedule_message`: guard `status == DRAFT`; persist the final
content (except for the fixed-template `session_reminder` type) and the
normalized recipient phone; treat a naive `send_at` as UTC; deliver
immediately when `send_at` is `None` or not after `now`, otherwise mark
`SCHEDULED`, store `scheduled_send_at`, and register the APScheduler
one-shot job. -/
def send_or_schedule_message (db : List Message) (therapist_id message_id : Int)
    (final_content : String) (recipient_phone : String) (send_at : Option DT)
    (now : Int) (patientPhone : Int → String) (provider : SendResult) :
    Except String (Option Message × List Message × List Effect) :=
  match findFor db therapist_id message_id with
  | none => .error "Message not found or does not belong to this therapist"
  | some m =>
      if m.status = .draft then
        match sosPhone (sosContent m final_content) recipient_phone with
        | .error e => .error e
        | .ok m2 =>
            match send_at.map normalizeSendAt with
            | none =>
                .ok (deliver_message
                  (updateMsg db { m2 with approved_at := some now })
                  patientPhone provider now message_id)
            | some dt =>
                if dt.instant ≤ now then
                  .ok (deliver_message
                    (updateMsg db { m2 with approved_at := some now })
                    patientPhone provider now message_id)
                else
                  .ok (some { m2 with approved_at := some now,
                                      status := .scheduled,
                                      scheduled_send_at := some dt },
                    updateMsg db { m2 with approved_at := some now,
                                           status := .scheduled,
                                           scheduled_send_at := some dt },
                    [Effect.schedulerAdd message_id dt])
      else
        .error "Can only confirm DRAFT messages"

/-- `cancel_message`: guard `status == SCHEDULED`, then set `CANCELLED`
and remove the APScheduler job (its failure is swallowed). -/
def cancel_message (db : List Message) (therapist_id message_id : Int) :
    Except String (Message × List Message × List Effect) :=
  match findFor db therapist_id message_id with
  | none => .error "Message not found or does not belong to this therapist"
  | some m =>
      if m.status = .scheduled then
        let m' := { m with status := .cancelled }
        .ok (m', updateMsg db m', [Effect.schedulerRemove message_id])
      else
        .error "Can only cancel SCHEDULED messages"

/-- The content step of `edit_scheduled_message`: an explicitly provided
content is stored unless the message is the fixed-template
`session_reminder` type. -/
def editContent (m : Message) (content : Option String) : Message :=
  match content with
  | some c =>
      if m.message_type ≠ "session_reminder" then { m with content := c } else m
  | none => m

/-- The recipient step of `edit_scheduled_message`: `None` leaves the
field, a non-empty value is normalized (propagating the raise), and an
explicit empty string clears the field. -/
def editPhone (m : Message) (recipient_phone : Option String) :
    Except String Message :=
  match recipient_phone with
  | none => .ok m
  | some rp =>
      if rp ≠ "" then
        (normalize_phone rp).map (fun p => { m with recipient_phone := p })
      else
        .ok { m with recipient_phone := rp }

/-- `edit_scheduled_message`: guard `status == SCHEDULED`; update only the
provided fields (content skipped for `session_reminder`); a new `send_at`
rewrites `scheduled_send_at` and reschedules the APScheduler job. -/
def edit_scheduled_message (db : List Message) (therapist_id message_id : Int)
    (content : Option String) (recipient_phone : Option String)
    (send_at : Option DT) : Except String (Message × List Message × List Effect) :=
  match findFor db therapist_id message_id with
  | none => .error "Message not found"
  | some m =>
      if m.status = .scheduled then
        match editPhone (editContent m content) recipient_phone with
        | .error e => .error e
        | .ok m2 =>
            match send_at with
            | some dt =>
                .ok ({ m2 with scheduled_send_at := some dt },
                  updateMsg db { m2 with scheduled_send_at := some dt },
                  [Effect.schedulerReschedule message_id dt])
            | none => .ok (m2, updateMsg db m2, [])
      else
        .error "Can only edit SCHEDULED messages"

/-! ### Channel adapters and factory
(`app/services/channels/__init__.py`, `channels/whatsapp.py`) -/

/-- The Twilio-related settings read by `get_channel`
(`app/core/config.py`); `""` models an unset credential. -/
structure Settings where
  TWILIO_ACCOUNT_SID : String := ""
  TWILIO_WHATSAPP_NUMBER : String := ""
  TWILIO_API_KEY_SID : String := ""
  TWILIO_API_KEY_SECRET : String := ""
  TWILIO_AUTH_TOKEN : String := ""
deriving DecidableEq, Repr

/-- A constructed channel adapter: the real Twilio transport
(`WhatsAppChannel`) or the development fallback (`DevLogChannel`). -/
inductive Channel where
  | whatsAppChannel (account_sid from_number api_key_sid api_key_secret auth_token : String)
  | devLogChannel
deriving DecidableEq, Repr

/-- A network side effect: the Twilio `messages.create` REST call made by
`WhatsAppChannel.send`.  `DevLogChannel.send` performs none. -/
inductive NetEffect where
  | twilioCreate (fromNumber toPhone body : String) (content_sid : Option String)
deriving DecidableEq, Repr

/-- `WhatsAppChannel.__init__`: requires an API key pair or an auth token,
else raises. -/
def mkWhatsAppChannel (account_sid from_number api_key_sid api_key_secret
    auth_token : String) : Except String Channel :=
  if api_key_sid ≠ "" ∧ api_key_secret ≠ "" then
    .ok (.whatsAppChannel account_sid from_number api_key_sid api_key_secret auth_token)
  else if auth_token ≠ "" then
    .ok (.whatsAppChannel account_sid from_number api_key_sid api_key_secret auth_token)
  else
    .error "Twilio requires either API Key or auth_token"

/-- `get_channel`: for `"whatsapp"`, build the real transport only when
account SID, sender number and one auth method are all configured,
otherwise return `DevLogChannel`; unknown channel names raise. -/
def get_channel (s : Settings) (channel : String) : Except String Channel :=
  if channel = "whatsapp" then
    let hasApiKey := s.TWILIO_API_KEY_SID ≠ "" ∧ s.TWILIO_API_KEY_SECRET ≠ ""
    let hasAuthToken := s.TWILIO_AUTH_TOKEN ≠ ""
    if s.TWILIO_ACCOUNT_SID ≠ "" ∧ s.TWILIO_WHATSAPP_NUMBER ≠ "" ∧
        (hasApiKey ∨ hasAuthToken) then
      mkWhatsAppChannel s.TWILIO_ACCOUNT_SID s.TWILIO_WHATSAPP_NUMBER
        s.TWILIO_API_KEY_SID s.TWILIO_API_KEY_SECRET s.TWILIO_AUTH_TOKEN
    else
      .ok .devLogChannel
  else
    .error "Unknown channel"

/-- `send` of either adapter.  The real transport's outcome depends on the
network, supplied as the `outcome` oracle, and issues one REST call;
`DevLogChannel.send` only logs and always reports success. -/
def channelSend (ch : Channel) (to_phone body : String)
    (content_sid : Option String) (outcome : SendResult) :
    SendResult × List NetEffect :=
  match ch with
  | .devLogChannel =>
      ({ status := "sent", provider_id := "dev-log", error := "" }, [])
  | .whatsAppChannel _ fromNum _ _ _ =>
      (outcome, [NetEffect.twilioCreate fromNum to_phone body content_sid])

/-- Whether the Twilio credentials are configured, i.e. the `has_creds`
condition of `get_channel`. -/
def credsConfigured (s : Settings) : Prop :=
  s.TWILIO_ACCOUNT_SID ≠ "" ∧ s.TWILIO_WHATSAPP_NUMBER ≠ "" ∧
    ((s.TWILIO_API_KEY_SID ≠ "" ∧ s.TWILIO_API_KEY_SECRET ≠ "") ∨
      s.TWILIO_AUTH_TOKEN ≠ "")

instance (s : Settings) : Decidable (credsConfigured s) := by
  unfold credsConfigured; infer_instance

/-! ### The lifecycle operations as store transformers -/

/-- One call to a public lifecycle operation, with all its arguments. -/
inductive LifecycleOp where
  | approveOp (tid mid : Int) (now : Int)
  | rejectOp (tid mid : Int) (reason : Option String) (now : Int)
  | editOp (tid mid : Int) (newContent : String)
  | sendOp (mid : Int) (now : Int)
  | sendOrScheduleOp (tid mid : Int) (fc rp : String) (sa : Option DT)
      (now : Int) (pp : Int → String) (prov : SendResult)
  | cancelOp (tid mid : Int)
  | editScheduledOp (tid mid : Int) (c : Option String) (rp : Option String)
      (sa : Option DT)
  | deliverOp (mid : Int) (pp : Int → String) (prov : SendResult) (now : Int)

/-- The committed rows after one operation; a raised error commits
nothing, leaving the rows unchanged. -/
def applyOp (op : LifecycleOp) (db : List Message) : List Message :=
  match op with
  | .approveOp tid mid now =>
      match approve_message db tid mid now with
      | .ok (_, db') => db'
      | .error _ => db
  | .rejectOp tid mid reason now =>
      match reject_message db tid mid reason now with
      | .ok (_, db') => db'
      | .error _ => db
  | .editOp tid mid c =>
      match edit_message db tid mid c with
      | .ok (_, db') => db'
      | .error _ => db
  | .sendOp mid now =>
      match send_message db mid now with
      | .ok (_, db') => db'
      | .error _ => db
  | .sendOrScheduleOp tid mid fc rp sa now pp prov =>
      match send_or_schedule_message db tid mid fc rp sa now pp prov with
      | .ok (_, db', _) => db'
      | .error _ => db
  | .cancelOp tid mid =>
      match cancel_message db tid mid with
      | .ok (_, db', _) => db'
      | .error _ => db
  | .editScheduledOp tid mid c rp sa =>
      match edit_scheduled_message db tid mid c rp sa with
      | .ok (_, db', _) => db'
      | .error _ => db
  | .deliverOp mid pp prov now =>
      (deliver_message db pp prov now mid).2.1

/-- The rows have pairwise distinct `id`s. -/
def noDupIds : List Message → Prop
  | [] => True
  | x :: rest => findMsg rest x.id = none ∧ noDupIds rest

instance instDecNoDupIds : (db : List Message) → Decidable (noDupIds db)
  | [] => by unfold noDupIds; infer_instance
  | x :: rest => by
      unfold noDupIds
      have : Decidable (noDupIds rest) := instDecNoDupIds rest
      infer_instance

/-! ### Store lemmas -/

theorem findMsg_some_id {db : List Message} {i : Int} {m : Message}
    (h : findMsg db i = some m) : m.id = i := by
  induction db with
  | nil => simp [findMsg] at h
  | cons x rest ih =>
      simp only [findMsg] at h
      split at h
      · cases h; assumption
      · exact ih h

theorem findMsg_mem {db : List Message} {i : Int} {m : Message}
    (h : findMsg db i = some m) : m ∈ db := by
  induction db with
  | nil => simp [findMsg] at h
  | cons x rest ih =>
      simp only [findMsg] at h
      split at h
      · cases h; exact List.mem_cons_self _ _
      · exact List.mem_cons_of_mem _ (ih h)

theorem findFor_some {db : List Message} {tid i : Int} {m : Message}
    (h : findFor db tid i = some m) : m.id = i ∧ m.therapist_id = tid := by
  induction db with
  | nil => simp [findFor] at h
  | cons x rest ih =>
      simp only [findFor] at h
      split at h
      · cases h; assumption
      · exact ih h

theorem findFor_isSome {db : List Message} {tid i : Int} {m : Message}
    (h : findFor db tid i = some m) : ∃ y, findMsg db i = some y := by
  induction db with
  | nil => simp [findFor] at h
  | cons x rest ih =>
      simp only [findFor] at h
      by_cases hx : x.id = i
      · exact ⟨x, by simp [findMsg, hx]⟩
      · rw [if_neg (by intro hh; exact hx hh.1)] at h
        obtain ⟨y, hy⟩ := ih h
        exact ⟨y, by simp [findMsg, hx, hy]⟩

theorem findMsg_none_findFor {db : List Message} {tid i : Int}
    (h : findMsg db i = none) : findFor db tid i = none := by
  induction db with
  | nil => simp [findFor]
  | cons x rest ih =>
      simp only [findMsg] at h
      by_cases hx : x.id = i
      · simp [hx] at h
      · rw [if_neg hx] at h
        simp only [findFor]
        rw [if_neg (by intro hh; exact hx hh.1)]
        exact ih h

theorem findMsg_update_hit {db : List Message} {i : Int} {mNew : Message}
    (hid : mNew.id = i) (hex : ∃ y, findMsg db i = some y) :
    findMsg (updateMsg db mNew) i = some mNew := by
  induction db with
  | nil => obtain ⟨y, hy⟩ := hex; simp [findMsg] at hy
  | cons x rest ih =>
      by_cases hx : x.id = i
      · simp [updateMsg, findMsg, hx, hid, hx.trans hid.symm]
      · have hx' : ¬ x.id = mNew.id := by rw [hid]; exact hx
        simp only [updateMsg, findMsg, if_neg hx', if_neg hx]
        apply ih
        obtain ⟨y, hy⟩ := hex
        simp only [findMsg, if_neg hx] at hy
        exact ⟨y, hy⟩

theorem findMsg_update_ne {db : List Message} {i : Int} {mNew : Message}
    (hid : mNew.id ≠ i) : findMsg (updateMsg db mNew) i = findMsg db i := by
  induction db with
  | nil => simp [updateMsg]
  | cons x rest ih =>
      by_cases hrepl : x.id = mNew.id
      · have hx : ¬ x.id = i := by rw [hrepl]; exact hid
        simp only [updateMsg, findMsg, if_pos hrepl, if_neg hid, if_neg hx]
        exact ih
      · simp only [updateMsg, findMsg, if_neg hrepl]
        by_cases hx : x.id = i
        · simp [hx]
        · simp only [if_neg hx]; exact ih

theorem findMsg_update_cases {db : List Message} {i : Int} {m m' mNew : Message}
    (hm : findMsg db i = some m)
    (hm' : findMsg (updateMsg db mNew) i = some m') :
    (mNew.id = i ∧ m' = mNew) ∨ (mNew.id ≠ i ∧ m' = m) := by
  by_cases hid : mNew.id = i
  · left
    refine ⟨hid, ?_⟩
    rw [findMsg_update_hit hid ⟨m, hm⟩] at hm'
    exact (Option.some.inj hm').symm
  · right
    refine ⟨hid, ?_⟩
    rw [findMsg_update_ne hid, hm] at hm'
    exact (Option.some.inj hm').symm

theorem findFor_findMsg_nodup {db : List Message} {tid i : Int} {m : Message}
    (hnd : noDupIds db) (h : findFor db tid i = some m) :
    findMsg db i = some m := by
  induction db with
  | nil => simp [findFor] at h
  | cons x rest ih =>
      obtain ⟨hx_none, hnd_rest⟩ := hnd
      simp only [findFor] at h
      by_cases hx : x.id = i ∧ x.therapist_id = tid
      · rw [if_pos hx] at h
        cases h
        simp [findMsg, hx.1]
      · rw [if_neg hx] at h
        have hmem := findFor_isSome h
        by_cases hxi : x.id = i
        · obtain ⟨y, hy⟩ := hmem
          rw [← hxi] at hy
          rw [hy] at hx_none
          cases hx_none
        · simp only [findMsg, if_neg hxi]
          exact ih hnd_rest h

/-! ### Claim theorems -/

theorem cleanPhone_of_whitespace {p : String}
    (hw : p.data.all Char.isWhitespace = true) : cleanPhone p = ⟨[]⟩ := by
  unfold cleanPhone
  congr 1
  rw [List.filter_eq_nil_iff]
  intro c hc
  have hcw : c.isWhitespace = true := by
    rw [List.all_eq_true] at hw
    exact hw c hc
  simp [isFormatChar, hcw]

/-- C7: the phone normalizer first rewrites the input (strip
formatting punctuation, `00` prefix to `+`, bare leading `0` to the
default country code `+972`) and returns the rewritten string exactly
when it has E.164 shape (`+` then 7–15 digits), raising otherwise; in
particular the three examples of the specification behave as stated. -/
theorem C7_phone_normalizer :
    (∀ p r, normalize_phone p = .ok r ↔
      (r = expandIntl (cleanPhone p) ∧ isE164 (expandIntl (cleanPhone p)) = true))
    ∧ normalize_phone "050-123-4567" = .ok "+972501234567"
    ∧ normalize_phone "+1 (415) 555-0100" = .ok "+14155550100"
    ∧ ∃ e, normalize_phone "abc" = .error e := by
  refine ⟨?_, rfl, rfl, ⟨_, rfl⟩⟩
  intro p r
  unfold normalize_phone
  by_cases hw : p.data.all Char.isWhitespace
  · rw [if_pos hw, cleanPhone_of_whitespace hw]
    constructor
    · intro h; cases h
    · intro ⟨_, h164⟩
      simp [expandIntl, startsL, isE164] at h164
  · rw [if_neg hw]
    constructor
    · intro h
      split at h
      · next digits heq =>
          by_cases hemp : (digits.isEmpty || !digits.all Char.isDigit) = true
          · rw [if_pos hemp] at h; cases h
          · rw [if_neg hemp] at h
            by_cases hlen : (decide (digits.length < 7) || decide (15 < digits.length)) = true
            · rw [if_pos hlen] at h; cases h
            · rw [if_neg hlen] at h
              cases h
              refine ⟨rfl, ?_⟩
              unfold isE164
              rw [heq]
              simp only [Bool.or_eq_true, Bool.not_eq_true', not_or,
                Bool.not_eq_false, decide_eq_true_eq, not_lt] at hemp hlen
              simp only [Bool.and_eq_true, decide_eq_true_eq]
              exact ⟨⟨hemp.2, hlen.1⟩, hlen.2⟩
      · cases h
    · intro ⟨hr, h164⟩
      subst hr
      unfold isE164 at h164
      split at h164
      · next digits heq =>
          simp only [Bool.and_eq_true, decide_eq_true_eq] at h164
          obtain ⟨⟨hall, h7⟩, h15⟩ := h164
          have hemp : ¬ (digits.isEmpty || !digits.all Char.isDigit) = true := by
            simp only [Bool.or_eq_true, Bool.not_eq_true', not_or,
              Bool.not_eq_false]
            refine ⟨?_, hall⟩
            simp only [List.isEmpty_eq_true]
            intro h0
            subst h0
            simp at h7
          have hlen : ¬ (decide (digits.length < 7) || decide (15 < digits.length)) = true := by
            simp only [Bool.or_eq_true, decide_eq_true_eq, not_or, not_lt]
            omega
          rw [if_neg hemp, if_neg hlen]
      · simp at h164

/-- C4: supplying `sendAt` as a timezone-naive timestamp denoting the
UTC instant `t` and supplying the same instant explicitly tagged UTC make
`send_or_schedule_message` behave identically: the same
immediate-vs-scheduled decision, status, `scheduled_send_at`, store and
effects. -/
theorem C4_naive_aware_equivalence :
    ∀ (db : List Message) (tid mid : Int) (fc rp : String) (t : Int)
      (now : Int) (pp : Int → String) (prov : SendResult),
      send_or_schedule_message db tid mid fc rp (some ⟨t, false⟩) now pp prov =
      send_or_schedule_message db tid mid fc rp (some ⟨t, true⟩) now pp prov := by
  intro db tid mid fc rp t now pp prov
  have hdt : normalizeSendAt ⟨t, false⟩ = normalizeSendAt ⟨t, true⟩ := by
    simp [normalizeSendAt]
  unfold send_or_schedule_message
  rw [show (some (DT.mk t false)).map normalizeSendAt =
      (some (DT.mk t true)).map normalizeSendAt by simp [hdt]]

/-- C10: the operation `deliver_message` on an id with no record returns `None`,
raises nothing and leaves the store and the outside world untouched,
while every other public operation raises a not-found error for an
unknown id. -/
theorem C10_deliver_unknown_id :
    ∀ (db : List Message) (pp : Int → String) (prov : SendResult)
      (now mid tid : Int) (reason : Option String) (fc rp : String)
      (sa : Option DT) (c orp : Option String) (osa : Option DT),
      findMsg db mid = none →
      deliver_message db pp prov now mid = (none, db, []) ∧
      (∃ e, approve_message db tid mid now = .error e) ∧
      (∃ e, reject_message db tid mid reason now = .error e) ∧
      (∃ e, edit_message db tid mid fc = .error e) ∧
      (∃ e, send_message db mid now = .error e) ∧
      (∃ e, send_or_schedule_message db tid mid fc rp sa now pp prov = .error e) ∧
      (∃ e, cancel_message db tid mid = .error e) ∧
      (∃ e, edit_scheduled_message db tid mid c orp osa = .error e) := by
  intro db pp prov now mid tid reason fc rp sa c orp osa h
  have hfor : findFor db tid mid = none := findMsg_none_findFor h
  refine ⟨?_, ?_, ?_, ?_, ?_, ?_, ?_, ?_⟩
  · unfold deliver_message; rw [h]
  · exact ⟨_, by unfold approve_message; rw [hfor]⟩
  · exact ⟨_, by unfold reject_message; rw [hfor]⟩
  · exact ⟨_, by unfold edit_message; rw [hfor]⟩
  · exact ⟨_, by unfold send_message; rw [h]⟩
  · exact ⟨_, by unfold send_or_schedule_message; rw [hfor]⟩
  · exact ⟨_, by unfold cancel_message; rw [hfor]⟩
  · exact ⟨_, by unfold edit_scheduled_message; rw [hfor]⟩

/-- Witness for C10 at a concrete empty store. -/
theorem C10_deliver_unknown_id_witness :
    findMsg [] 7 = none ∧
    deliver_message [] (fun _ => "") ⟨"sent", "p", ""⟩ 0 7 = (none, [], []) := by
  refine ⟨rfl, ?_⟩
  exact (C10_deliver_unknown_id [] (fun _ => "") ⟨"sent", "p", ""⟩ 0 7 1 none
    "c" "" none none none none rfl).1

/-- C9: the adapter method `DevLogChannel.send` performs no network call and always
returns status `"sent"`, and `get_channel` never yields the real Twilio
transport when the credentials are not configured — for the
`"whatsapp"` channel it yields exactly the DevLog adapter. -/
theorem C9_devlog_fallback :
    (∀ (to_phone body : String) (cs : Option String) (outcome : SendResult),
      channelSend .devLogChannel to_phone body cs outcome =
        ({ status := "sent", provider_id := "dev-log", error := "" }, [])) ∧
    (∀ s : Settings, ¬ credsConfigured s →
      get_channel s "whatsapp" = .ok .devLogChannel ∧
      ∀ ch c, get_channel s ch = .ok c → c = .devLogChannel) := by
  refine ⟨fun _ _ _ _ => rfl, ?_⟩
  intro s hnc
  have hwa : get_channel s "whatsapp" = .ok .devLogChannel := by
    unfold get_channel
    rw [if_pos rfl, if_neg]
    exact fun h => hnc h
  refine ⟨hwa, ?_⟩
  intro ch c hch
  by_cases hname : ch = "whatsapp"
  · subst hname
    rw [hwa] at hch
    exact (Except.ok.inj hch).symm
  · unfold get_channel at hch
    rw [if_neg hname] at hch
    cases hch

/-- Witness for C9 at a concrete unconfigured `Settings`. -/
theorem C9_devlog_fallback_witness :
    ¬ credsConfigured {} ∧ get_channel {} "whatsapp" = .ok .devLogChannel := by
  have hnc : ¬ credsConfigured {} := by decide
  exact ⟨hnc, (C9_devlog_fallback.2 {} hnc).1⟩

/-- Concrete record refuting C2: a message that was already `SENT`. -/
def c2Msg : Message :=
  { id := 1, therapist_id := 1, patient_id := 1, content := "hello",
    status := .sent, sent_at := some 10 }

/-- C2 counterexample: the claim says `reject` fails with an
invalid-transition error from any status outside DRAFT/PENDING_APPROVAL;
but `reject_message` has no status guard: rejecting an already-`SENT`
message succeeds and moves it to `REJECTED`. -/
theorem C2_counterexample :
    ∃ r, reject_message [c2Msg] 1 1 (some "too late") 20 = .ok r ∧
      r.1.status = .rejected ∧ c2Msg.status = .sent := by
  exact ⟨_, rfl, rfl, rfl⟩

/-- C2 amended: `approve` succeeds exactly from DRAFT or
PENDING_APPROVAL (raising an invalid-transition error otherwise, with
nothing committed), but `reject` succeeds from every status whenever the
record exists, always recording `rejected_at` and `rejection_reason`. -/
theorem C2_amended_guards :
    ∀ (db : List Message) (tid mid : Int) (m : Message) (now : Int)
      (reason : Option String),
      findFor db tid mid = some m →
      ((∃ r, approve_message db tid mid now = .ok r) ↔
        (m.status = .draft ∨ m.status = .pending_approval)) ∧
      (∃ m' db', reject_message db tid mid reason now = .ok (m', db') ∧
        m'.status = .rejected ∧ m'.rejected_at = some now ∧
        m'.rejection_reason = reason) := by
  intro db tid mid m now reason hfind
  constructor
  · constructor
    · intro ⟨r, hr⟩
      by_cases hg : m.status = .draft ∨ m.status = .pending_approval
      · exact hg
      · exfalso
        unfold approve_message at hr
        rw [hfind] at hr
        simp only [if_neg hg] at hr
        cases hr
    · intro hg
      unfold approve_message
      rw [hfind]
      simp only [if_pos hg]
      exact ⟨_, rfl⟩
  · unfold reject_message
    rw [hfind]
    exact ⟨_, _, rfl, rfl, rfl, rfl⟩

/-- Witness for C2 (amended) at a concrete one-row store. -/
def c2Draft : Message :=
  { id := 2, therapist_id := 3, patient_id := 1, content := "draft text",
    status := .draft }

theorem C2_amended_guards_witness :
    findFor [c2Draft] 3 2 = some c2Draft ∧
    ((∃ r, approve_message [c2Draft] 3 2 50 = .ok r) ↔
      (c2Draft.status = .draft ∨ c2Draft.status = .pending_approval)) := by
  exact ⟨rfl, (C2_amended_guards [c2Draft] 3 2 c2Draft 50 (some "no") rfl).1⟩

/-- Concrete record refuting C1: already terminal (`SENT`), with a
stored recipient phone. -/
def c1Msg : Message :=
  { id := 1, therapist_id := 1, patient_id := 2, content := "hi",
    status := .sent, sent_at := some 0, recipient_phone := "+972501234567" }

/-- A provider outcome for a failed send. -/
def provFail : SendResult := { status := "failed", provider_id := "", error := "boom" }

/-- C1 counterexample: the claim says `deliver` on an
already-terminal record is a no-op with no provider call; but
`deliver_message` has no terminal-status guard: on a `SENT` record it
issues a provider send call and, here, flips the record to `FAILED`. -/
theorem C1_counterexample :
    c1Msg.status = .sent ∧
    (deliver_message [c1Msg] (fun _ => "") provFail 9 1).2.2 =
      [Effect.providerSend "+972501234567" "hi" false] ∧
    (deliver_message [c1Msg] (fun _ => "") provFail 9 1).1 =
      some { c1Msg with status := .failed } := by
  exact ⟨rfl, rfl, rfl⟩

/-- C1 amended: `deliver_message` performs no terminal-status
check: whenever the record exists and a recipient phone is resolvable,
it issues exactly one provider send call regardless of the record's
status — so a second `deliver` on a record that already reached SENT or
FAILED repeats the provider call instead of being a no-op. -/
theorem C1_amended_no_terminal_guard :
    ∀ (db : List Message) (pp : Int → String) (prov : SendResult)
      (now mid : Int) (m : Message),
      findMsg db mid = some m →
      resolvePhone pp m ≠ "" →
      (deliver_message db pp prov now mid).2.2 =
        [Effect.providerSend (resolvePhone pp m) m.content
          (m.message_type == "session_reminder")] := by
  intro db pp prov now mid m hfind hphone
  unfold deliver_message
  rw [hfind]
  simp only [if_neg hphone]
  by_cases hs : prov.status = "sent"
  · simp only [if_pos hs]
  · simp only [if_neg hs]

/-- Witness for C1 (amended): a terminal `SENT` record with a phone. -/
theorem C1_amended_no_terminal_guard_witness :
    findMsg [c1Msg] 1 = some c1Msg ∧
    resolvePhone (fun _ => "") c1Msg ≠ "" ∧
    (deliver_message [c1Msg] (fun _ => "") provFail 9 1).2.2 =
      [Effect.providerSend (resolvePhone (fun _ => "") c1Msg) c1Msg.content
        (c1Msg.message_type == "session_reminder")] := by
  refine ⟨rfl, by decide, ?_⟩
  exact C1_amended_no_terminal_guard [c1Msg] (fun _ => "") provFail 9 1 c1Msg
    rfl (by decide)

/-- Concrete record refuting C5: no recipient override and no profile
phone. -/
def c5Msg : Message :=
  { id := 3, therapist_id := 1, patient_id := 7, content := "x",
    status := .approved }

/-- C5 counterexample: the claim says the no-phone path records the
failure reason "no phone" on the record; but `deliver_message` only sets
`status = FAILED` there — the resulting record carries no reason at all
(`rejection_reason` stays `none`, and the model, like the source's
`Message` table, has no failure-reason column). -/
theorem C5_counterexample :
    (deliver_message [c5Msg] (fun _ => "") ⟨"sent", "p", ""⟩ 9 3).1 =
      some { c5Msg with status := .failed } ∧
    (deliver_message [c5Msg] (fun _ => "") ⟨"sent", "p", ""⟩ 9 3).1.map
      Message.rejection_reason = some none := by
  exact ⟨rfl, rfl⟩

/-- C5 amended: every failing delivery path sets `FAILED`, but a
reason is recorded on the record only for the known Twilio policy error
(an error mentioning code 63016, stored into `rejection_reason` as
"outside 24h window - template required"); the no-phone path and generic
provider failures change the status alone and leave every reason field
as it was. -/
theorem C5_amended_failure_recording :
    ∀ (db : List Message) (pp : Int → String) (prov : SendResult)
      (now mid : Int) (m : Message),
      findMsg db mid = some m →
      (resolvePhone pp m = "" →
        (deliver_message db pp prov now mid).1 = some { m with status := .failed }) ∧
      (resolvePhone pp m ≠ "" →
        prov.status ≠ "sent" →
        (deliver_message db pp prov now mid).1 =
          some (if strHas ['6', '3', '0', '1', '6'] prov.error.data then
            { m with status := .failed,
                     rejection_reason := some "outside 24h window - template required" }
          else { m with status := .failed })) := by
  intro db pp prov now mid m hfind
  constructor
  · intro hph
    unfold deliver_message
    rw [hfind]
    simp only [if_pos hph]
  · intro hph hps
    unfold deliver_message
    rw [hfind]
    simp only [if_neg hph, if_neg hps]

/-- Witness for C5 (amended): the no-phone path at a concrete record. -/
theorem C5_amended_failure_recording_witness :
    findMsg [c5Msg] 3 = some c5Msg ∧
    resolvePhone (fun _ => "") c5Msg = "" ∧
    (deliver_message [c5Msg] (fun _ => "") ⟨"sent", "p", ""⟩ 9 3).1 =
      some { c5Msg with status := .failed } := by
  refine ⟨rfl, by decide, ?_⟩
  exact (C5_amended_failure_recording [c5Msg] (fun _ => "") ⟨"sent", "p", ""⟩
    9 3 c5Msg rfl).1 (by decide)

/-- Concrete record refuting C6: a `SCHEDULED` message. -/
def c6Msg : Message :=
  { id := 4, therapist_id := 2, patient_id := 1, content := "soon",
    status := .scheduled, scheduled_send_at := some ⟨100, true⟩ }

/-- C6 counterexample: the claim says cancelling is pure state
mutation with no job-removal step and that editing the send time is a
plain rewrite with no reschedule call; but `cancel_message` removes the
APScheduler job and `edit_scheduled_message` with a new `send_at` calls
`scheduler.reschedule_job`. -/
theorem C6_counterexample :
    (∃ r, cancel_message [c6Msg] 2 4 = .ok r ∧
      r.2.2 = [Effect.schedulerRemove 4] ∧ r.2.2 ≠ []) ∧
    (∃ r, edit_scheduled_message [c6Msg] 2 4 none none (some ⟨200, true⟩) = .ok r ∧
      r.2.2 = [Effect.schedulerReschedule 4 ⟨200, true⟩] ∧ r.2.2 ≠ []) := by
  exact ⟨⟨_, rfl, rfl, by decide⟩, ⟨_, rfl, rfl, by decide⟩⟩

/-- C6 amended: `cancel` succeeds exactly when the status is
`SCHEDULED` (otherwise it raises an invalid-transition error); a
successful cancel changes only the status, to `CANCELLED`, but
additionally issues a scheduler job-removal call, and editing a
`SCHEDULED` message's send time rewrites `scheduled_send_at` and
additionally issues a scheduler reschedule call. -/
theorem C6_amended_cancel_and_reschedule :
    ∀ (db : List Message) (tid mid : Int) (m : Message),
      findFor db tid mid = some m →
      ((∃ r, cancel_message db tid mid = .ok r) ↔ m.status = .scheduled) ∧
      (∀ r, cancel_message db tid mid = .ok r →
        r.1 = { m with status := .cancelled } ∧
        r.2.2 = [Effect.schedulerRemove mid]) ∧
      (∀ dt r, edit_scheduled_message db tid mid none none (some dt) = .ok r →
        r.1 = { m with scheduled_send_at := some dt } ∧
        r.2.2 = [Effect.schedulerReschedule mid dt]) := by
  intro db tid mid m hfind
  refine ⟨⟨?_, ?_⟩, ?_, ?_⟩
  · intro ⟨r, hr⟩
    by_cases hg : m.status = .scheduled
    · exact hg
    · exfalso
      unfold cancel_message at hr
      rw [hfind] at hr
      simp only [if_neg hg] at hr
      cases hr
  · intro hg
    unfold cancel_message
    rw [hfind]
    simp only [if_pos hg]
    exact ⟨_, rfl⟩
  · intro r hr
    unfold cancel_message at hr
    rw [hfind] at hr
    by_cases hg : m.status = .scheduled
    · simp only [if_pos hg] at hr
      cases hr
      exact ⟨rfl, rfl⟩
    · simp only [if_neg hg] at hr
      cases hr
  · intro dt r hr
    unfold edit_scheduled_message at hr
    rw [hfind] at hr
    by_cases hg : m.status = .scheduled
    · simp only [if_pos hg] at hr
      cases hr
      exact ⟨rfl, rfl⟩
    · simp only [if_neg hg] at hr
      cases hr

/-- Witness for C6 (amended) at the concrete scheduled record. -/
theorem C6_amended_cancel_and_reschedule_witness :
    findFor [c6Msg] 2 4 = some c6Msg ∧
    ((∃ r, cancel_message [c6Msg] 2 4 = .ok r) ↔ c6Msg.status = .scheduled) := by
  exact ⟨rfl, (C6_amended_cancel_and_reschedule [c6Msg] 2 4 c6Msg rfl).1⟩

/-- `deliver_message` on an existing record always lands on a terminal
status: `SENT` on provider success, `FAILED` otherwise (no phone, policy
error, or generic provider failure). -/
theorem deliver_reaches_terminal :
    ∀ (db : List Message) (pp : Int → String) (prov : SendResult)
      (now mid : Int) (m : Message),
      findMsg db mid = some m →
      ∃ m', (deliver_message db pp prov now mid).1 = some m' ∧
        (m'.status = .sent ∨ m'.status = .failed) ∧
        findMsg (deliver_message db pp prov now mid).2.1 mid = some m' := by
  intro db pp prov now mid m hfind
  have hid := findMsg_some_id hfind
  unfold deliver_message
  rw [hfind]
  by_cases hph : resolvePhone pp m = ""
  · simp only [if_pos hph]
    exact ⟨_, rfl, Or.inr rfl, findMsg_update_hit hid ⟨m, hfind⟩⟩
  · simp only [if_neg hph]
    by_cases hs : prov.status = "sent"
    · simp only [if_pos hs]
      exact ⟨_, rfl, Or.inl rfl, findMsg_update_hit hid ⟨m, hfind⟩⟩
    · simp only [if_neg hs]
      by_cases h63 : strHas ['6', '3', '0', '1', '6'] prov.error.data
      · simp only [if_pos h63]
        exact ⟨_, rfl, Or.inr rfl, findMsg_update_hit hid ⟨m, hfind⟩⟩
      · simp only [if_neg h63]
        exact ⟨_, rfl, Or.inr rfl, findMsg_update_hit hid ⟨m, hfind⟩⟩

/-- `sosContent` and `sosPhone` never change the record identity or
status. -/
theorem sosPhone_id_status {m m2 : Message} {rp : String}
    (h : sosPhone m rp = .ok m2) : m2.id = m.id ∧ m2.status = m.status := by
  unfold sosPhone at h
  by_cases hrp : rp ≠ ""
  · rw [if_pos hrp] at h
    cases hn : normalize_phone rp with
    | error e => rw [hn] at h; cases h
    | ok p =>
        rw [hn] at h
        cases h
        exact ⟨rfl, rfl⟩
  · rw [if_neg hrp] at h
    cases h
    exact ⟨rfl, rfl⟩

theorem sosContent_id_status (m : Message) (fc : String) :
    (sosContent m fc).id = m.id ∧ (sosContent m fc).status = m.status := by
  unfold sosContent
  by_cases ht : m.message_type ≠ "session_reminder"
  · rw [if_pos ht]; exact ⟨rfl, rfl⟩
  · rw [if_neg ht]; exact ⟨rfl, rfl⟩

/-- Normalizing a naive timestamp to UTC keeps the denoted instant. -/
theorem normalizeSendAt_instant (d : DT) :
    (normalizeSendAt d).instant = d.instant := by
  unfold normalizeSendAt
  by_cases ha : d.aware
  · rw [if_pos ha]
  · rw [if_neg ha]

/-- C3: from DRAFT, a successful `send_or_schedule_message` with
`sendAt` absent or not after `now` leaves the record in a terminal
state (`SENT` or `FAILED`), never `SCHEDULED`; with `sendAt` strictly in
the future it leaves the record `SCHEDULED` with `scheduled_send_at`
equal to the given time normalized to UTC, and the only effect is the
scheduler-job registration — no provider send call happens
synchronously. -/
theorem C3_send_or_schedule_decision :
    ∀ (db : List Message) (tid mid : Int) (m : Message) (fc rp : String)
      (sa : Option DT) (now : Int) (pp : Int → String) (prov : SendResult)
      (res : Option Message × List Message × List Effect),
      findFor db tid mid = some m →
      send_or_schedule_message db tid mid fc rp sa now pp prov = .ok res →
      ((sa = none ∨ ∃ d, sa = some d ∧ d.instant ≤ now) →
        ∃ m', res.1 = some m' ∧ (m'.status = .sent ∨ m'.status = .failed) ∧
          findMsg res.2.1 mid = some m') ∧
      (∀ d, sa = some d → now < d.instant →
        ∃ m', res.1 = some m' ∧ m'.status = .scheduled ∧
          m'.scheduled_send_at = some (normalizeSendAt d) ∧
          findMsg res.2.1 mid = some m' ∧
          res.2.2 = [Effect.schedulerAdd mid (normalizeSendAt d)]) := by
  intro db tid mid m fc rp sa now pp prov res hfind hok
  have hmid : m.id = mid := (findFor_some hfind).1
  have hex : ∃ y, findMsg db mid = some y := findFor_isSome hfind
  unfold send_or_schedule_message at hok
  rw [hfind] at hok
  by_cases hg : m.status = .draft
  case neg => simp only [if_neg hg] at hok; cases hok
  simp only [if_pos hg] at hok
  cases hph : sosPhone (sosContent m fc) rp with
  | error e => rw [hph] at hok; cases hok
  | ok m2 =>
      rw [hph] at hok
      have hm2id : m2.id = mid := by
        rw [(sosPhone_id_status hph).1, (sosContent_id_status m fc).1, hmid]
      have hdb1 : findMsg (updateMsg db { m2 with approved_at := some now }) mid =
          some { m2 with approved_at := some now } :=
        findMsg_update_hit hm2id hex
      cases sa with
      | none =>
          simp only [Option.map_none'] at hok
          injection hok with h
          subst h
          refine ⟨?_, ?_⟩
          · intro _
            exact deliver_reaches_terminal _ pp prov now mid _ hdb1
          · intro d hd
            cases hd
      | some d =>
          simp only [Option.map_some'] at hok
          by_cases hle : (normalizeSendAt d).instant ≤ now
          · rw [if_pos hle] at hok
            injection hok with h
            subst h
            refine ⟨?_, ?_⟩
            · intro _
              exact deliver_reaches_terminal _ pp prov now mid _ hdb1
            · intro d' hd' hfut
              cases hd'
              have := normalizeSendAt_instant d
              omega
          · rw [if_neg hle] at hok
            injection hok with h
            subst h
            refine ⟨?_, ?_⟩
            · intro himm
              exfalso
              rcases himm with h | ⟨d', hd', hle'⟩
              · cases h
              · cases hd'
                have := normalizeSendAt_instant d
                omega
            · intro d' hd' _
              cases hd'
              refine ⟨_, rfl, rfl, rfl, ?_, rfl⟩
              exact findMsg_update_hit hm2id hex

/-- Witness for C3 at a concrete draft record: the immediate branch with
`sendAt` absent. -/
def c3Msg : Message :=
  { id := 5, therapist_id := 1, patient_id := 1, content := "d",
    status := .draft, recipient_phone := "+972501234567" }

theorem C3_send_or_schedule_decision_witness :
    findFor [c3Msg] 1 5 = some c3Msg ∧
    ∃ res, send_or_schedule_message [c3Msg] 1 5 "final" "" none 0 (fun _ => "")
        ⟨"sent", "p", ""⟩ = .ok res ∧
      ∃ m', res.1 = some m' ∧ (m'.status = .sent ∨ m'.status = .failed) ∧
        findMsg res.2.1 5 = some m' := by
  refine ⟨rfl, _, rfl, ?_⟩
  exact (C3_send_or_schedule_decision [c3Msg] 1 5 c3Msg "final" "" none 0
    (fun _ => "") ⟨"sent", "p", ""⟩ _ rfl rfl).1 (Or.inl rfl)

/-! ### Lemmas for the content-immutability invariant -/

theorem found_eq {db : List Message} {i mid : Int} {m m0 : Message}
    (hm : findMsg db i = some m) (hf : findMsg db mid = some m0)
    (hid : m0.id = i) : m = m0 := by
  have hmid : m0.id = mid := findMsg_some_id hf
  have hii : mid = i := by rw [← hmid, hid]
  subst hii
  rw [hm] at hf
  exact Option.some.inj hf

theorem content_eq_of_same {db : List Message} {i : Int} {m m' : Message}
    (hm : findMsg db i = some m) (hm' : findMsg db i = some m') :
    m'.content = m.content := by
  rw [hm] at hm'
  rw [Option.some.inj hm']

theorem editContent_id_status (m : Message) (c : Option String) :
    (editContent m c).id = m.id ∧ (editContent m c).status = m.status := by
  cases c with
  | none => exact ⟨rfl, rfl⟩
  | some s =>
      by_cases ht : m.message_type ≠ "session_reminder"
      · simp [editContent, if_pos ht]
      · simp [editContent, if_neg ht]

theorem editPhone_id_status {m m2 : Message} {rp : Option String}
    (h : editPhone m rp = .ok m2) : m2.id = m.id ∧ m2.status = m.status := by
  cases rp with
  | none =>
      have h' : Except.ok m = Except.ok m2 := h
      cases h'
      exact ⟨rfl, rfl⟩
  | some s =>
      by_cases hs : s ≠ ""
      · simp only [editPhone, if_pos hs] at h
        cases hn : normalize_phone s with
        | error e => rw [hn] at h; cases h
        | ok p =>
            rw [hn] at h
            have h' : Except.ok { m with recipient_phone := p } = Except.ok m2 := h
            cases h'
            exact ⟨rfl, rfl⟩
      · simp only [editPhone, if_neg hs] at h
        cases h
        exact ⟨rfl, rfl⟩

/-- `deliver_message` never changes the `content` of any stored row. -/
theorem deliver_content_stable :
    ∀ (db : List Message) (pp : Int → String) (prov : SendResult)
      (now mid i : Int) (m m' : Message),
      findMsg db i = some m →
      findMsg (deliver_message db pp prov now mid).2.1 i = some m' →
      m'.content = m.content := by
  intro db pp prov now mid i m m' hm hm'
  unfold deliver_message at hm'
  cases hf : findMsg db mid with
  | none =>
      rw [hf] at hm'
      exact content_eq_of_same hm hm'
  | some m0 =>
      rw [hf] at hm'
      by_cases hph : resolvePhone pp m0 = ""
      · simp only [if_pos hph] at hm'
        rcases findMsg_update_cases hm hm' with ⟨hid, rfl⟩ | ⟨_, rfl⟩
        · rw [found_eq hm hf hid]
        · rfl
      · simp only [if_neg hph] at hm'
        by_cases hs : prov.status = "sent"
        · simp only [if_pos hs] at hm'
          rcases findMsg_update_cases hm hm' with ⟨hid, rfl⟩ | ⟨_, rfl⟩
          · rw [found_eq hm hf hid]
          · rfl
        · simp only [if_neg hs] at hm'
          by_cases h63 : strHas ['6', '3', '0', '1', '6'] prov.error.data
          · simp only [if_pos h63] at hm'
            rcases findMsg_update_cases hm hm' with ⟨hid, rfl⟩ | ⟨_, rfl⟩
            · rw [found_eq hm hf hid]
            · rfl
          · simp only [if_neg h63] at hm'
            rcases findMsg_update_cases hm hm' with ⟨hid, rfl⟩ | ⟨_, rfl⟩
            · rw [found_eq hm hf hid]
            · rfl

/-- C8: across every lifecycle operation, a stored message's
`content` changes only when the operation found it in DRAFT,
PENDING_APPROVAL or SCHEDULED — once a record is SENT (or any later
refinement), no operation changes its content. -/
theorem C8_content_immutability :
    ∀ (op : LifecycleOp) (db : List Message) (i : Int) (m m' : Message),
      noDupIds db →
      findMsg db i = some m →
      findMsg (applyOp op db) i = some m' →
      m'.content ≠ m.content →
      (m.status = .draft ∨ m.status = .pending_approval ∨ m.status = .scheduled) := by
  intro op db i m m' hnd hm hm' hc
  cases op with
  | approveOp tid mid now =>
      simp only [applyOp] at hm'
      unfold approve_message at hm'
      cases hf : findFor db tid mid with
      | none =>
          rw [hf] at hm'
          exact absurd (content_eq_of_same hm hm') hc
      | some m0 =>
          rw [hf] at hm'
          by_cases hg : m0.status = .draft ∨ m0.status = .pending_approval
          · simp only [if_pos hg] at hm'
            rcases findMsg_update_cases hm hm' with ⟨hid, rfl⟩ | ⟨_, rfl⟩
            · have hm0 : findMsg db mid = some m0 := findFor_findMsg_nodup hnd hf
              rw [found_eq hm hm0 hid]
              rcases hg with h | h
              · exact Or.inl h
              · exact Or.inr (Or.inl h)
            · exact absurd rfl hc
          · simp only [if_neg hg] at hm'
            exact absurd (content_eq_of_same hm hm') hc
  | rejectOp tid mid reason now =>
      simp only [applyOp] at hm'
      unfold reject_message at hm'
      cases hf : findFor db tid mid with
      | none =>
          rw [hf] at hm'
          exact absurd (content_eq_of_same hm hm') hc
      | some m0 =>
          rw [hf] at hm'
          rcases findMsg_update_cases hm hm' with ⟨hid, rfl⟩ | ⟨_, rfl⟩
          · have hm0 : findMsg db mid = some m0 := findFor_findMsg_nodup hnd hf
            exact absurd (by rw [found_eq hm hm0 hid]) hc
          · exact absurd rfl hc
  | editOp tid mid c =>
      simp only [applyOp] at hm'
      unfold edit_message at hm'
      cases hf : findFor db tid mid with
      | none =>
          rw [hf] at hm'
          exact absurd (content_eq_of_same hm hm') hc
      | some m0 =>
          rw [hf] at hm'
          by_cases hg : m0.status = .draft ∨ m0.status = .pending_approval
          · simp only [if_pos hg] at hm'
            rcases findMsg_update_cases hm hm' with ⟨hid, rfl⟩ | ⟨_, rfl⟩
            · have hm0 : findMsg db mid = some m0 := findFor_findMsg_nodup hnd hf
              rw [found_eq hm hm0 hid]
              rcases hg with h | h
              · exact Or.inl h
              · exact Or.inr (Or.inl h)
            · exact absurd rfl hc
          · simp only [if_neg hg] at hm'
            exact absurd (content_eq_of_same hm hm') hc
  | sendOp mid now =>
      simp only [applyOp] at hm'
      unfold send_message at hm'
      cases hf : findMsg db mid with
      | none =>
          rw [hf] at hm'
          exact absurd (content_eq_of_same hm hm') hc
      | some m0 =>
          rw [hf] at hm'
          by_cases hg : m0.status = .approved
          · simp only [if_pos hg] at hm'
            rcases findMsg_update_cases hm hm' with ⟨hid, rfl⟩ | ⟨_, rfl⟩
            · exact absurd (by rw [found_eq hm hf hid]) hc
            · exact absurd rfl hc
          · simp only [if_neg hg] at hm'
            exact absurd (content_eq_of_same hm hm') hc
  | cancelOp tid mid =>
      simp only [applyOp] at hm'
      unfold cancel_message at hm'
      cases hf : findFor db tid mid with
      | none =>
          rw [hf] at hm'
          exact absurd (content_eq_of_same hm hm') hc
      | some m0 =>
          rw [hf] at hm'
          by_cases hg : m0.status = .scheduled
          · simp only [if_pos hg] at hm'
            rcases findMsg_update_cases hm hm' with ⟨hid, rfl⟩ | ⟨_, rfl⟩
            · have hm0 : findMsg db mid = some m0 := findFor_findMsg_nodup hnd hf
              rw [found_eq hm hm0 hid]
              exact Or.inr (Or.inr hg)
            · exact absurd rfl hc
          · simp only [if_neg hg] at hm'
            exact absurd (content_eq_of_same hm hm') hc
  | editScheduledOp tid mid c orp osa =>
      simp only [applyOp] at hm'
      unfold edit_scheduled_message at hm'
      cases hf : findFor db tid mid with
      | none =>
          rw [hf] at hm'
          exact absurd (content_eq_of_same hm hm') hc
      | some m0 =>
          rw [hf] at hm'
          by_cases hg : m0.status = .scheduled
          · simp only [if_pos hg] at hm'
            cases hep : editPhone (editContent m0 c) orp with
            | error e =>
                rw [hep] at hm'
                exact absurd (content_eq_of_same hm hm') hc
            | ok m2 =>
                rw [hep] at hm'
                have hm2id : m2.id = m0.id := by
                  rw [(editPhone_id_status hep).1, (editContent_id_status m0 c).1]
                have hm0 : findMsg db mid = some m0 := findFor_findMsg_nodup hnd hf
                cases osa with
                | some dt =>
                    rcases findMsg_update_cases hm hm' with ⟨hid, rfl⟩ | ⟨_, rfl⟩
                    · rw [found_eq hm hm0 (by rw [← hm2id]; exact hid)]
                      exact Or.inr (Or.inr hg)
                    · exact absurd rfl hc
                | none =>
                    rcases findMsg_update_cases hm hm' with ⟨hid, rfl⟩ | ⟨_, rfl⟩
                    · rw [found_eq hm hm0 (by rw [← hm2id]; exact hid)]
                      exact Or.inr (Or.inr hg)
                    · exact absurd rfl hc
          · simp only [if_neg hg] at hm'
            exact absurd (content_eq_of_same hm hm') hc
  | deliverOp mid pp prov now =>
      simp only [applyOp] at hm'
      exact absurd (deliver_content_stable db pp prov now mid i m m' hm hm') hc
  | sendOrScheduleOp tid mid fc rp sa now pp prov =>
      simp only [applyOp] at hm'
      unfold send_or_schedule_message at hm'
      cases hf : findFor db tid mid with
      | none =>
          rw [hf] at hm'
          exact absurd (content_eq_of_same hm hm') hc
      | some m0 =>
          rw [hf] at hm'
          by_cases hg : m0.status = .draft
          · simp only [if_pos hg] at hm'
            cases hph : sosPhone (sosContent m0 fc) rp with
            | error e =>
                rw [hph] at hm'
                exact absurd (content_eq_of_same hm hm') hc
            | ok m2 =>
                rw [hph] at hm'
                have hm2id : m2.id = m0.id := by
                  rw [(sosPhone_id_status hph).1, (sosContent_id_status m0 fc).1]
                by_cases hio : m0.id = i
                · have hm0 : findMsg db mid = some m0 := findFor_findMsg_nodup hnd hf
                  rw [found_eq hm hm0 hio]
                  exact Or.inl hg
                · exfalso
                  apply hc
                  have hne1 : ({ m2 with approved_at := some now } : Message).id ≠ i := by
                    intro hh
                    exact hio (by rw [← hm2id]; exact hh)
                  cases sa with
                  | none =>
                      have hm1 : findMsg
                          (updateMsg db { m2 with approved_at := some now }) i = some m := by
                        rw [findMsg_update_ne hne1]
                        exact hm
                      exact deliver_content_stable _ pp prov now mid i m m' hm1 hm'
                  | some d =>
                      by_cases hle : (normalizeSendAt d).instant ≤ now
                      · simp only [Option.map_some', if_pos hle] at hm'
                        have hm1 : findMsg
                            (updateMsg db { m2 with approved_at := some now }) i = some m := by
                          rw [findMsg_update_ne hne1]
                          exact hm
                        exact deliver_content_stable _ pp prov now mid i m m' hm1 hm'
                      · simp only [Option.map_some', if_neg hle] at hm'
                        have hne2 : ({ m2 with
                                       approved_at := some now,
                                       status := MessageStatus.scheduled,
                                       scheduled_send_at := some (normalizeSendAt d) } :
                            Message).id ≠ i := hne1
                        rw [findMsg_update_ne hne2, hm] at hm'
                        rw [Option.some.inj hm']
          · simp only [if_neg hg] at hm'
            exact absurd (content_eq_of_same hm hm') hc

/-- Witness for C8: an `edit_message` on a concrete DRAFT record changes
the content, and that record was indeed in an editable status. -/
theorem C8_content_immutability_witness :
    noDupIds [c2Draft] ∧
    findMsg [c2Draft] 2 = some c2Draft ∧
    findMsg (applyOp (.editOp 3 2 "rewritten") [c2Draft]) 2 =
      some { c2Draft with content := "rewritten" } ∧
    ({ c2Draft with content := "rewritten" } : Message).content ≠ c2Draft.content ∧
    (c2Draft.status = .draft ∨ c2Draft.status = .pending_approval ∨
      c2Draft.status = .scheduled) := by
  refine ⟨by decide, rfl, rfl, by decide, ?_⟩
  exact C8_content_immutability (.editOp 3 2 "rewritten") [c2Draft] 2 c2Draft
    { c2Draft with content := "rewritten" } (by decide) rfl rfl (by decide)

end VirtualTherapist
